import Mathlib

/-!
# Verification of the WebAutomator command interpreter

Shallow embedding of `src/main.rs` (the command interpreter) and
`yaml2commands/src/lib.rs` (the step model and its serialization) of the
WebAutomator repository, together with proofs about the embedded code.

Modelling conventions:
* element handles (`fantoccini::Element`) and window handles are abstract and
  represented by `Nat`;
* the `fantoccini::Client` is represented by an abstract state type `σ`
  together with a record of protocol operations (`Client σ`), each operation
  returning its result and the successor state (`&mut Client` threading);
* `f64` durations and `u32`/`usize` numbers are carried opaquely as `Nat`
  (no arithmetic is ever performed on them by the interpreter);
* `client.wait_for_find` either completes with a result (`some r`) or never
  completes (`none`, the element never appears); `tokio::time::timeout`
  around it turns a never-completing wait into an `Elapsed` error;
* the unbounded `loop` constructs of the source (`Loop` retries,
  `ClickUntilNavigation`/`ClickUntilDomChanged` click loops) are modelled with
  a fuel parameter that is threaded through the whole interpreter and
  decremented on every internal call; fuel exhaustion yields `none`
  (divergence marker), never a value.
-/

namespace WebAutomator

/-- Abstract DOM element handle (`fantoccini::Element`). -/
abbrev Elem := Nat

/-- Abstract window handle (`webdriver` window handle). -/
abbrev Window := Nat

/-- The WebDriver protocol error statuses the interpreter inspects
(`webdriver::error::ErrorStatus`); all other statuses are collapsed into
`other`. -/
inductive ErrorStatus where
  | noSuchWindow
  | invalidSessionId
  | other (code : Nat)
  deriving DecidableEq, Repr

/-- `fantoccini::error::CmdError`: either a standard WebDriver error carrying
an `ErrorStatus`, or any other `CmdError` variant (collapsed, with a
message). -/
inductive CmdErr where
  | standard (e : ErrorStatus)
  | nonStandard (msg : String)
  deriving DecidableEq, Repr

/-- The `anyhow::Error` values that can flow through the program:
a `CmdError` (for which `downcast_ref::<CmdError>()` succeeds), or one of the
`anyhow!`/`bail!` errors created in `main.rs`, or a `tokio` timeout
`Elapsed` error. -/
inductive WDError where
  | cmd (e : CmdErr)
  | missingSelector
  | windowNotFound
  | loopFailed (e : ErrorStatus)
  | elapsed
  deriving DecidableEq, Repr

mutual
/-- `yaml2commands::CommandType`.  The variants `Loop`, `Clear`,
`ClickUntilNavigation` and `ClickUntilDomChanged` are matched on by
`main.rs` but absent from the checked-in `yaml2commands/src/lib.rs` enum;
their declarations are modelled from the spec: `Loop` holds an ordered
sequence of steps, the other three carry no payload. -/
inductive CommandType where
  | Click
  | Check
  | Input (s : String)
  | Wait
  | WaitForSeconds (sec : Nat)
  | GoTo (url : String)
  | ChangeWindow (i : Nat)
  | EnterFrame
  | LeaveFrame
  | PrintSource
  | Recursive (child : WebCommand)
  | ScrollIntoView
  | ChangeWindowSize (width : Nat) (height : Nat)
  | Loop (cs : List WebCommand)
  | Clear
  | ClickUntilNavigation
  | ClickUntilDomChanged

/-- `yaml2commands::WebCommand`: an optional CSS selector plus a command
type. -/
inductive WebCommand where
  | mk (selector : Option String) (command_type : CommandType)
end

/-- The `selector` field of a `WebCommand`. -/
def WebCommand.selector : WebCommand → Option String
  | .mk sel _ => sel

/-- The `command_type` field of a `WebCommand`. -/
def WebCommand.command_type : WebCommand → CommandType
  | .mk _ ct => ct

/-- The browser session facade: the protocol operations of
`fantoccini::Client` (and of `Element`, for context-scoped lookup) used by
`main.rs`, as state-passing functions over an abstract client state `σ`.
Every operation returns its result together with the successor state, also
on error (`&mut Client` survives failed calls).  `waitForFind` returns
`none` when the wait never completes (the element never appears). -/
structure Client (σ : Type) where
  goto : String → σ → Except CmdErr Unit × σ
  find : String → σ → Except CmdErr Elem × σ
  elemFind : Elem → String → σ → Except CmdErr Elem × σ
  waitForFind : String → σ → Option (Except CmdErr Elem × σ)
  click : Elem → σ → Except CmdErr Unit × σ
  sendKeys : Elem → String → σ → Except CmdErr Unit × σ
  clearElem : Elem → σ → Except CmdErr Unit × σ
  windows : σ → Except CmdErr (List Window) × σ
  switchToWindow : Window → σ → Except CmdErr Unit × σ
  enterFrame : Elem → σ → Except CmdErr Unit × σ
  enterParentFrame : σ → Except CmdErr Unit × σ
  setWindowSize : Nat → Nat → σ → Except CmdErr Unit × σ
  source : σ → Except CmdErr String × σ
  currentUrl : σ → Except CmdErr String × σ
  execute : String → σ → Except CmdErr Unit × σ
  sleep : Nat → σ → σ

/-- Result of one interpreter activity: `none` marks divergence (fuel
exhaustion of an unbounded source loop, or a wait that never completes);
otherwise the `anyhow::Result` value together with the final client state. -/
abbrev StepRes (σ : Type) := Option (Except WDError (Option Elem) × σ)

/-- The element-resolution step of `do_command_detail`'s element-mode arm
(`main.rs` lines 180–184): search within the context element when the
incoming context is `Some`, otherwise from the document root. -/
def resolveElem {σ : Type} (c : Client σ) (elem : Option Elem) (sel : String)
    (s : σ) : Except CmdErr Elem × σ :=
  match elem with
  | some e => c.elemFind e sel s
  | none => c.find sel s

/-- The shared prelude of the element-mode arm of `do_command_detail`
(`main.rs` lines 178–184): require the selector
(`get_next_locator()?`), resolve the working element, propagate failures,
then run the per-kind continuation. -/
def withResolved {σ : Type} (c : Client σ) (selOpt : Option String)
    (elem : Option Elem) (s : σ)
    (k : Elem → σ → StepRes σ) : StepRes σ :=
  match selOpt with
  | none => some (.error .missingSelector, s)
  | some sel =>
    match resolveElem c elem sel s with
    | (.error er, s1) => some (.error (.cmd er), s1)
    | (.ok ne, s1) => k ne s1

/-- The activities of the interpreter, used to express the mutual recursion
of `run_command` and `do_command_detail` as a single fuel-indexed function:
`chain` is `run_command` (folding `do_command_detail` over a command and its
`Recursive` descendants), `detail` is `do_command_detail`, `seqq` is the
`for` loop over a `Loop`'s inner commands, `retry` is the `loop` of the
`Loop` arm, and `clickRepeat` is the `loop` of the
`ClickUntilNavigation`/`ClickUntilDomChanged` arms (`byUrl` selects the
snapshot operation). -/
inductive Call where
  | chain (elem : Option Elem) (cmd : WebCommand)
  | detail (elem : Option Elem) (cmd : WebCommand)
  | seqq (cs : List WebCommand)
  | retry (cs : List WebCommand)
  | clickRepeat (selOpt : Option String) (base : String) (byUrl : Bool) (e : Elem)

/-- The command interpreter of `main.rs` (`run_command` and
`do_command_detail`), as a fuel-indexed function.  Fuel is decremented on
every internal call, so the function is structurally recursive and fully
executable; `none` means the computation did not finish within the given
fuel (the source loops are unbounded). -/
def interp {σ : Type} (c : Client σ) : Nat → Call → σ → StepRes σ
  | 0, _, _ => none
  | n+1, call, s =>
    match call with
    | .chain elem cmd =>
      -- `run_command`: iterate `do_command_detail` down the `Recursive` chain,
      -- threading the element context; the final context is discarded
      -- (`run_command` returns `Result<()>`).
      match interp c n (.detail elem cmd) s with
      | none => none
      | some (.error e, s1) => some (.error e, s1)
      | some (.ok r, s1) =>
        match cmd.command_type with
        | .Recursive child => interp c n (.chain r child) s1
        | _ => some (.ok none, s1)
    | .seqq cs =>
      -- the `for command in commands` loop of the `Loop` arm
      -- (`main.rs` lines 109–115): run each inner command with a fresh
      -- context, stop at the first error.
      match cs with
      | [] => some (.ok none, s)
      | cmd :: rest =>
        match interp c n (.chain none cmd) s with
        | none => none
        | some (.error e, s1) => some (.error e, s1)
        | some (.ok _, s1) => interp c n (.seqq rest) s1
    | .retry cs =>
      -- the `loop` of the `Loop` arm (`main.rs` lines 108–131): on success
      -- break; on failure classify: `NoSuchWindow`/`InvalidSessionId`
      -- standard protocol errors are rewrapped by
      -- `bail!("A loop has failed: {}", e)`, everything else is logged and
      -- the whole inner sequence re-runs from scratch.
      match interp c n (.seqq cs) s with
      | none => none
      | some (.ok r, s1) => some (.ok r, s1)
      | some (.error e, s1) =>
        match e with
        | .cmd (.standard .noSuchWindow) =>
          some (.error (.loopFailed .noSuchWindow), s1)
        | .cmd (.standard .invalidSessionId) =>
          some (.error (.loopFailed .invalidSessionId), s1)
        | _ => interp c n (.retry cs) s1
    | .clickRepeat selOpt base byUrl e =>
      -- the `loop` of the `ClickUntilNavigation`/`ClickUntilDomChanged`
      -- arms (`main.rs` lines 195–218): click, re-snapshot, break when the
      -- snapshot differs from the baseline, otherwise re-resolve the
      -- element via the same selector and repeat.
      match c.click e s with
      | (.error er, s1) => some (.error (.cmd er), s1)
      | (.ok _, s1) =>
        match (if byUrl then c.currentUrl s1 else c.source s1) with
        | (.error er, s2) => some (.error (.cmd er), s2)
        | (.ok u, s2) =>
          if u = base then
            match selOpt with
            | none => some (.error .missingSelector, s2)
            | some sel =>
              match c.find sel s2 with
              | (.error er, s3) => some (.error (.cmd er), s3)
              | (.ok ne, s3) => interp c n (.clickRepeat selOpt base byUrl ne) s3
          else some (.ok none, s2)
    | .detail elem cmd =>
      match cmd.command_type with
      | .GoTo url =>
        match c.goto url s with
        | (.error er, s1) => some (.error (.cmd er), s1)
        | (.ok _, s1) => some (.ok elem, s1)
      | .Loop cs =>
        match interp c n (.retry cs) s with
        | none => none
        | some (.error e, s1) => some (.error e, s1)
        | some (.ok _, s1) => some (.ok elem, s1)
      | .ChangeWindowSize w h =>
        match c.setWindowSize w h s with
        | (.error er, s1) => some (.error (.cmd er), s1)
        | (.ok _, s1) => some (.ok elem, s1)
      | .ScrollIntoView =>
        -- `get_selector()?` is evaluated while building the script, before
        -- `client.execute` is reached.
        match cmd.selector with
        | none => some (.error .missingSelector, s)
        | some sel =>
          match c.execute ("document.querySelector(\"" ++ sel ++
              "\").scrollIntoView();") s with
          | (.error er, s1) => some (.error (.cmd er), s1)
          | (.ok _, s1) => some (.ok elem, s1)
      | .WaitForSeconds sec =>
        -- selector present: `tokio::time::timeout(sec, wait_for_find)` —
        -- a never-completing wait becomes an `Elapsed` error;
        -- selector absent: `std::thread::sleep`.
        match cmd.selector with
        | some sel =>
          match c.waitForFind sel s with
          | none => some (.error .elapsed, s)
          | some (.error er, s1) => some (.error (.cmd er), s1)
          | some (.ok _, s1) => some (.ok elem, s1)
        | none => some (.ok elem, c.sleep sec s)
      | .ChangeWindow i =>
        match c.windows s with
        | (.error er, s1) => some (.error (.cmd er), s1)
        | (.ok ws, s1) =>
          match ws.get? i with
          | some w =>
            match c.switchToWindow w s1 with
            | (.error er, s2) => some (.error (.cmd er), s2)
            | (.ok _, s2) => some (.ok elem, s2)
          | none => some (.error .windowNotFound, s1)
      | .LeaveFrame =>
        match c.enterParentFrame s with
        | (.error er, s1) => some (.error (.cmd er), s1)
        | (.ok _, s1) => some (.ok elem, s1)
      | .PrintSource =>
        match c.source s with
        | (.error er, s1) => some (.error (.cmd er), s1)
        | (.ok _, s1) => some (.ok elem, s1)
      | .Wait =>
        -- `client.wait_for_find(locator)` with no timeout wrapper: a wait
        -- that never completes diverges.
        match cmd.selector with
        | none => some (.error .missingSelector, s)
        | some sel =>
          match c.waitForFind sel s with
          | none => none
          | some (.error er, s1) => some (.error (.cmd er), s1)
          | some (.ok _, s1) => some (.ok elem, s1)
      | .Clear =>
        withResolved c cmd.selector elem s (fun ne s1 =>
          match c.clearElem ne s1 with
          | (.error er, s2) => some (.error (.cmd er), s2)
          | (.ok _, s2) => some (.ok none, s2))
      | .EnterFrame =>
        withResolved c cmd.selector elem s (fun ne s1 =>
          match c.enterFrame ne s1 with
          | (.error er, s2) => some (.error (.cmd er), s2)
          | (.ok _, s2) => some (.ok none, s2))
      | .ClickUntilNavigation =>
        withResolved c cmd.selector elem s (fun ne s1 =>
          match c.currentUrl s1 with
          | (.error er, s2) => some (.error (.cmd er), s2)
          | (.ok base, s2) =>
            interp c n (.clickRepeat cmd.selector base true ne) s2)
      | .ClickUntilDomChanged =>
        withResolved c cmd.selector elem s (fun ne s1 =>
          match c.source s1 with
          | (.error er, s2) => some (.error (.cmd er), s2)
          | (.ok base, s2) =>
            interp c n (.clickRepeat cmd.selector base false ne) s2)
      | .Click =>
        withResolved c cmd.selector elem s (fun ne s1 =>
          match c.click ne s1 with
          | (.error er, s2) => some (.error (.cmd er), s2)
          | (.ok _, s2) => some (.ok none, s2))
      | .Input str =>
        withResolved c cmd.selector elem s (fun ne s1 =>
          match c.sendKeys ne str s1 with
          | (.error er, s2) => some (.error (.cmd er), s2)
          | (.ok _, s2) => some (.ok none, s2))
      | .Recursive _ =>
        withResolved c cmd.selector elem s (fun ne s1 =>
          some (.ok (some ne), s1))
      | .Check =>
        withResolved c cmd.selector elem s (fun _ne s1 =>
          some (.ok none, s1))

/-- The `for command in commands` loop of `main` (`main.rs` lines 37–42):
run each top-level command via `run_command` with a fresh context; on the
first error, print it and break.  Returns the reported error (if any) and
the final client state; `none` marks divergence. -/
def mainLoop {σ : Type} (c : Client σ) (fuel : Nat) :
    List WebCommand → σ → Option (Option WDError × σ)
  | [], s => some (none, s)
  | cmd :: rest, s =>
    match interp c fuel (.chain none cmd) s with
    | none => none
    | some (.error e, s1) => some (some e, s1)
    | some (.ok _, s1) => mainLoop c fuel rest s1

/-- `main` after the geckodriver child process has been spawned
(`main.rs` lines 35–45): connect (`Client::new(...).await?` — on error the
`?` returns before `child.kill()` is reached), run the command loop, then
`child.kill()`.  The boolean records whether `child.kill()` was reached
before the program exited. -/
def mainRun {σ : Type} (c : Client σ) (fuel : Nat) (cmds : List WebCommand)
    (connect : Except WDError σ) : Option (Bool × Except WDError Unit) :=
  match connect with
  | .error e => some (false, .error e)
  | .ok s0 =>
    match mainLoop c fuel cmds s0 with
    | none => none
    | some _ => some (true, .ok ())

/-- The command kinds handled by the element-mode (catch-all) arm of
`do_command_detail`. -/
def isElementKind : CommandType → Bool
  | .Clear => true
  | .EnterFrame => true
  | .ClickUntilNavigation => true
  | .ClickUntilDomChanged => true
  | .Click => true
  | .Input _ => true
  | .Recursive _ => true
  | .Check => true
  | _ => false

/-- The command kinds whose execution requires `selector` to be present:
the element-mode kinds plus `ScrollIntoView` and `Wait`. -/
def needsSelector (ct : CommandType) : Bool :=
  isElementKind ct ||
    (match ct with
     | .ScrollIntoView => true
     | .Wait => true
     | _ => false)

/-- The error classification of the `Loop` arm: exactly the standard
protocol errors `NoSuchWindow` and `InvalidSessionId` abort the loop. -/
def isFatalErr : WDError → Bool
  | .cmd (.standard .noSuchWindow) => true
  | .cmd (.standard .invalidSessionId) => true
  | _ => false
/-- A client over `Nat` states where every operation succeeds and bumps the
state; lookups return fixed handles. -/
def cAllOk : Client Nat where
  goto := fun _ s => (.ok (), s+1)
  find := fun _ s => (.ok 7, s+1)
  elemFind := fun _ _ s => (.ok 8, s+1)
  waitForFind := fun _ s => some (.ok 9, s+1)
  click := fun _ s => (.ok (), s+1)
  sendKeys := fun _ _ s => (.ok (), s+1)
  clearElem := fun _ s => (.ok (), s+1)
  windows := fun s => (.ok [10, 20], s)
  switchToWindow := fun _ s => (.ok (), s+1)
  enterFrame := fun _ s => (.ok (), s+1)
  enterParentFrame := fun s => (.ok (), s+1)
  setWindowSize := fun _ _ s => (.ok (), s+1)
  source := fun s => (.ok "src", s)
  currentUrl := fun s => (.ok "url", s)
  execute := fun _ s => (.ok (), s+1)
  sleep := fun _ s => s

/-- Like `cAllOk`, but `goto` fails: with a standard `NoSuchWindow` protocol
error at state 100, with non-protocol errors at state 200 and at states
below 2, and succeeds elsewhere. -/
def cFlaky : Client Nat :=
  { cAllOk with
    goto := fun _ s =>
      if s = 100 then (.error (.standard .noSuchWindow), s+1)
      else if s = 200 then (.error (.nonStandard "boom"), s+1)
      else if s < 2 then (.error (.nonStandard "flaky"), s+1)
      else (.ok (), s+1) }

/-- Like `cAllOk`, but both element lookups fail. -/
def cNoFind : Client Nat :=
  { cAllOk with
    find := fun _ s => (.error (.nonStandard "no such element"), s+1)
    elemFind := fun _ _ s => (.error (.nonStandard "no such element"), s+1) }

/-- Like `cAllOk`, but `goto` fails with a standard `NoSuchWindow` protocol
error on its first call (state 0) and succeeds afterwards. -/
def cOnceNsw : Client Nat :=
  { cAllOk with
    goto := fun _ s =>
      if s = 0 then (.error (.standard .noSuchWindow), s+1)
      else (.ok (), s+1) }

/-- The snapshot schedule of the C6 witness: the URL/page source is "a"
after up to two clicks and "b" afterwards. -/
def fSched : Nat → String := fun j => if j ≤ 2 then "a" else "b"

/-- The C6 witness client: clicking bumps the click counter, snapshots
follow `fSched`, lookups return `counter + 100`. -/
def cSched : Client Nat :=
  { cAllOk with
    find := fun _ s => (.ok (s+100), s)
    currentUrl := fun s => (.ok (fSched s), s)
    source := fun s => (.ok (fSched s), s) }

/-- A client where no wait ever completes (the awaited element never
appears). -/
def cNever : Client Nat :=
  { cAllOk with waitForFind := fun _ _ => none }

/-- A client where waiting for selector "a" never completes and waiting for
any other selector finds element 9 immediately. -/
def cWaitMix : Client Nat :=
  { cAllOk with
    waitForFind := fun sel s =>
      if sel = "a" then none else some (.ok 9, s+1) }

/-- The document model produced by `serde_yaml` for the derived
`Serialize`/`Deserialize` of `CommandType`/`WebCommand`: strings, numbers
(the opaque model of `f64`/`u32`/`usize` payloads), null (`~`), sequences
and mappings.  The textual YAML grammar itself is external. -/
inductive Yaml where
  | str (s : String)
  | num (n : Nat)
  | null
  | seqV (xs : List Yaml)
  | mapV (kvs : List (String × Yaml))
  deriving Repr

/-- Serialization of the optional selector (`~` for `None`). -/
def encodeSelector : Option String → Yaml
  | none => .null
  | some s => .str s

/-- Parsing of the optional selector. -/
def decodeSelector : Yaml → Option (Option String)
  | .null => some none
  | .str s => some (some s)
  | _ => none

mutual
/-- Derived `Serialize` for `CommandType` under the serde data model: unit
variants as strings, newtype variants as one-entry mappings, the struct
variant as a nested mapping. -/
def encodeCT : CommandType → Yaml
  | .Click => .str "Click"
  | .Check => .str "Check"
  | .Input s => .mapV [("Input", .str s)]
  | .Wait => .str "Wait"
  | .WaitForSeconds n => .mapV [("WaitForSeconds", .num n)]
  | .GoTo u => .mapV [("GoTo", .str u)]
  | .ChangeWindow i => .mapV [("ChangeWindow", .num i)]
  | .EnterFrame => .str "EnterFrame"
  | .LeaveFrame => .str "LeaveFrame"
  | .PrintSource => .str "PrintSource"
  | .Recursive child => .mapV [("Recursive", encodeCommand child)]
  | .ScrollIntoView => .str "ScrollIntoView"
  | .ChangeWindowSize w h =>
    .mapV [("ChangeWindowSize",
      .mapV [("width", .num w), ("height", .num h)])]
  | .Loop cs => .mapV [("Loop", .seqV (encodeCommands cs))]
  | .Clear => .str "Clear"
  | .ClickUntilNavigation => .str "ClickUntilNavigation"
  | .ClickUntilDomChanged => .str "ClickUntilDomChanged"

/-- Derived `Serialize` for `WebCommand`: a mapping with the `selector` and
`command_type` fields. -/
def encodeCommand : WebCommand → Yaml
  | .mk sel ct =>
    .mapV [("selector", encodeSelector sel), ("command_type", encodeCT ct)]

/-- Serialization of a command list (`Vec<WebCommand>`). -/
def encodeCommands : List WebCommand → List Yaml
  | [] => []
  | c :: cs => encodeCommand c :: encodeCommands cs
end

/-- Dispatch of the derived `Deserialize` for `CommandType` on a unit
variant name. -/
def decodeCTStr (s : String) : Option CommandType :=
  if s = "Click" then some .Click
  else if s = "Check" then some .Check
  else if s = "Wait" then some .Wait
  else if s = "EnterFrame" then some .EnterFrame
  else if s = "LeaveFrame" then some .LeaveFrame
  else if s = "PrintSource" then some .PrintSource
  else if s = "ScrollIntoView" then some .ScrollIntoView
  else if s = "Clear" then some .Clear
  else if s = "ClickUntilNavigation" then some .ClickUntilNavigation
  else if s = "ClickUntilDomChanged" then some .ClickUntilDomChanged
  else none

/-- Dispatch of the derived `Deserialize` for `CommandType` on a one-entry
mapping whose variant carries a non-recursive payload. -/
def decodeCTKeyPlain (k : String) (v : Yaml) : Option CommandType :=
  if k = "Input" then
    match v with
    | .str arg => some (.Input arg)
    | _ => none
  else if k = "WaitForSeconds" then
    match v with
    | .num n => some (.WaitForSeconds n)
    | _ => none
  else if k = "GoTo" then
    match v with
    | .str u => some (.GoTo u)
    | _ => none
  else if k = "ChangeWindow" then
    match v with
    | .num i => some (.ChangeWindow i)
    | _ => none
  else if k = "ChangeWindowSize" then
    match v with
    | .mapV [("width", .num w), ("height", .num hh)] =>
      some (.ChangeWindowSize w hh)
    | _ => none
  else none

mutual
/-- Derived `Deserialize` for `CommandType` on the canonical image of the
serializer (serde also accepts other orderings/spellings; round-tripping
only exercises this domain). -/
def decodeCT : Yaml → Option CommandType
  | .str s => decodeCTStr s
  | .mapV [(k, v)] =>
    if k = "Recursive" then (decodeCommand v).map .Recursive
    else if k = "Loop" then
      match v with
      | .seqV ys => (decodeCommands ys).map .Loop
      | _ => none
    else decodeCTKeyPlain k v
  | _ => none

/-- Derived `Deserialize` for `WebCommand`. -/
def decodeCommand : Yaml → Option WebCommand
  | .mapV [(k1, ysel), (k2, yct)] =>
    if k1 = "selector" then
      if k2 = "command_type" then
        match decodeSelector ysel, decodeCT yct with
        | some sel, some ct => some (.mk sel ct)
        | _, _ => none
      else none
    else none
  | _ => none

/-- Parsing of a command list. -/
def decodeCommands : List Yaml → Option (List WebCommand)
  | [] => some []
  | y :: ys =>
    match decodeCommand y, decodeCommands ys with
    | some car, some cdr => some (car :: cdr)
    | _, _ => none
end

-- Concrete clients used by witnesses and counterexamples.

-- One-step unfolding lemmas for `interp` (all definitional).

/-- Unfolding: one `run_command` step of the `Recursive` chain. -/
theorem interp_chain_step {σ : Type} (c : Client σ) (k : Nat)
    (elem : Option Elem) (cmd : WebCommand) (s : σ) :
    interp c (k+1) (.chain elem cmd) s
      = match interp c k (.detail elem cmd) s with
        | none => none
        | some (.error e, s1) => some (.error e, s1)
        | some (.ok r, s1) =>
          match cmd.command_type with
          | .Recursive child => interp c k (.chain r child) s1
          | _ => some (.ok none, s1) := rfl

/-- Unfolding: the `Loop` arm of `do_command_detail` delegates to the retry
loop and restores the incoming context on success. -/
theorem interp_detail_loop {σ : Type} (c : Client σ) (k : Nat)
    (elem : Option Elem) (selOpt : Option String) (cs : List WebCommand)
    (s : σ) :
    interp c (k+1) (.detail elem (.mk selOpt (.Loop cs))) s
      = match interp c k (.retry cs) s with
        | none => none
        | some (.error e, s1) => some (.error e, s1)
        | some (.ok _, s1) => some (.ok elem, s1) := rfl

/-- Unfolding: one step of `main`'s top-level command loop. -/
theorem mainLoop_cons {σ : Type} (c : Client σ) (fuel : Nat)
    (cmd : WebCommand) (rest : List WebCommand) (s : σ) :
    mainLoop c fuel (cmd :: rest) s
      = match interp c fuel (.chain none cmd) s with
        | none => none
        | some (.error e, s1) => some (some e, s1)
        | some (.ok _, s1) => mainLoop c fuel rest s1 := rfl

/-- C2: within one flat sequence (the top-level command list of `main`, or a
`Loop`'s inner list), a failing step makes the whole sequence stop with that
error: the remaining steps are never executed (the result and final state do
not depend on them), and a succeeding step passes control to the rest of the
sequence. -/
theorem c2_sequences_fail_fast {σ : Type} (c : Client σ) (cmd : WebCommand)
    (fuel : Nat) (s s1 : σ) (e : WDError) (rest : List WebCommand)
    (h : interp c fuel (.chain none cmd) s = some (.error e, s1)) :
    mainLoop c fuel (cmd :: rest) s = some (some e, s1) ∧
    interp c (fuel+1) (.seqq (cmd :: rest)) s = some (.error e, s1) ∧
    (∀ (cmd2 : WebCommand) (u : Option Elem) (s2 s3 : σ)
        (rest2 : List WebCommand),
      interp c fuel (.chain none cmd2) s2 = some (.ok u, s3) →
      mainLoop c fuel (cmd2 :: rest2) s2 = mainLoop c fuel rest2 s3 ∧
      interp c (fuel+1) (.seqq (cmd2 :: rest2)) s2
        = interp c fuel (.seqq rest2) s3) := by
  refine ⟨?_, ?_, ?_⟩
  · simp [mainLoop, h]
  · simp [interp, h]
  · intro cmd2 u s2 s3 rest2 h2
    exact ⟨by simp [mainLoop, h2], by simp [interp, h2]⟩

/-- Witness for C2 at a concrete client and program. -/
theorem c2_sequences_fail_fast_witness :
    mainLoop cFlaky 3 [WebCommand.mk none (.GoTo "u"), WebCommand.mk (some "a") .Check] 200
      = some (some (.cmd (.nonStandard "boom")), 201) ∧
    interp cFlaky 4 (.seqq [WebCommand.mk none (.GoTo "u"), WebCommand.mk (some "a") .Check]) 200
      = some (.error (.cmd (.nonStandard "boom")), 201) := by
  have H := c2_sequences_fail_fast cFlaky (WebCommand.mk none (.GoTo "u")) 3
    200 201 (.cmd (.nonStandard "boom")) [WebCommand.mk (some "a") .Check] rfl
  exact ⟨H.1, H.2.1⟩

/-- C5: every command kind that requires a selector (the element-mode kinds
plus `ScrollIntoView` and `Wait`) fails immediately with the
missing-selector error when the selector is absent, leaving the client state
untouched for every client (so no protocol call is made and the step is
never a silent no-op, nor retried). -/
theorem c5_selector_required {σ : Type} (c : Client σ) (ct : CommandType)
    (elem : Option Elem) (n : Nat) (s : σ)
    (hk : needsSelector ct = true) :
    interp c (n+1) (.detail elem (.mk none ct)) s
      = some (.error .missingSelector, s) := by
  cases ct <;>
    simp_all [needsSelector, isElementKind, interp, withResolved,
      WebCommand.command_type, WebCommand.selector]

/-- Witness for C5 at a concrete client and kind. -/
theorem c5_selector_required_witness :
    interp cAllOk 1 (.detail none (.mk none .Click)) 0
      = some (.error .missingSelector, 0) :=
  c5_selector_required cAllOk .Click none 0 0 rfl

/-- C3: every element-mode step resolves its selector via the context
element's scoped lookup when the incoming context is `Some`, and via the
document-root lookup when it is `None`; a failed lookup propagates as that
error (no local retry), and a successful scoped lookup is what the step
consumes (shown for `Check`, whose only effect is the lookup). -/
theorem c3_context_scoped_resolution {σ : Type} (c : Client σ)
    (ct : CommandType) (sel : String) (n : Nat) (s : σ)
    (hk : isElementKind ct = true) :
    (∀ (e : Elem) (er : CmdErr) (s1 : σ),
      c.elemFind e sel s = (.error er, s1) →
      interp c (n+1) (.detail (some e) (.mk (some sel) ct)) s
        = some (.error (.cmd er), s1)) ∧
    (∀ (er : CmdErr) (s1 : σ),
      c.find sel s = (.error er, s1) →
      interp c (n+1) (.detail none (.mk (some sel) ct)) s
        = some (.error (.cmd er), s1)) ∧
    (∀ (e ne : Elem) (s1 : σ),
      c.elemFind e sel s = (.ok ne, s1) →
      interp c (n+1) (.detail (some e) (.mk (some sel) .Check)) s
        = some (.ok none, s1)) := by
  refine ⟨fun e er s1 h => ?_, fun er s1 h => ?_, fun e ne s1 h => ?_⟩
  · cases ct <;>
      simp_all [isElementKind, interp, withResolved, resolveElem,
        WebCommand.command_type, WebCommand.selector]
  · cases ct <;>
      simp_all [isElementKind, interp, withResolved, resolveElem,
        WebCommand.command_type, WebCommand.selector]
  · simp_all [interp, withResolved, resolveElem,
      WebCommand.command_type, WebCommand.selector]

/-- Witness for C3: a client whose lookups fail with a no-such-element
error, and one whose scoped lookup succeeds. -/
theorem c3_context_scoped_resolution_witness :
    interp cNoFind 2 (.detail (some 5) (.mk (some "a") .Click)) 0
      = some (.error (.cmd (.nonStandard "no such element")), 1) ∧
    interp cNoFind 2 (.detail none (.mk (some "a") .Click)) 0
      = some (.error (.cmd (.nonStandard "no such element")), 1) ∧
    interp cAllOk 2 (.detail (some 5) (.mk (some "a") .Check)) 0
      = some (.ok none, 1) := by
  have H1 := c3_context_scoped_resolution cNoFind .Click "a" 1 0 rfl
  have H2 := c3_context_scoped_resolution cAllOk .Check "a" 1 0 rfl
  exact ⟨H1.1 5 (.nonStandard "no such element") 1 rfl,
         H1.2.1 (.nonStandard "no such element") 1 rfl,
         H2.2.2 5 8 1 rfl⟩

/-- C10: `ChangeWindow i` asks the session for its ordered window list; when
`i` is out of range it fails with the window-not-found error in the state
right after the query (no switch is consulted, for any client), and when `i`
is in range it switches to the window at position `i` and returns the
incoming element context unchanged. -/
theorem c10_change_window {σ : Type} (c : Client σ) (i : Nat)
    (selOpt : Option String) (elem : Option Elem) (n : Nat) (s s1 : σ)
    (ws : List Window)
    (h : c.windows s = (.ok ws, s1)) :
    (ws[i]? = none →
      interp c (n+1) (.detail elem (.mk selOpt (.ChangeWindow i))) s
        = some (.error .windowNotFound, s1)) ∧
    (∀ (w : Window) (s2 : σ),
      ws[i]? = some w → c.switchToWindow w s1 = (.ok (), s2) →
      interp c (n+1) (.detail elem (.mk selOpt (.ChangeWindow i))) s
        = some (.ok elem, s2)) := by
  constructor
  · intro hi
    simp [interp, WebCommand.command_type, h, hi]
  · intro w s2 hi hw
    simp [interp, WebCommand.command_type, h, hi, hw]

/-- Witness for C10: out-of-range index 5 and in-range index 1 against a
two-window session. -/
theorem c10_change_window_witness :
    interp cAllOk 1 (.detail (some 3) (.mk none (.ChangeWindow 5))) 0
      = some (.error .windowNotFound, 0) ∧
    interp cAllOk 1 (.detail (some 3) (.mk none (.ChangeWindow 1))) 0
      = some (.ok (some 3), 1) := by
  have H5 := c10_change_window cAllOk 5 none (some 3) 0 0 0 [10, 20] rfl
  have H1 := c10_change_window cAllOk 1 none (some 3) 0 0 0 [10, 20] rfl
  exact ⟨H5.1 rfl, H1.2 20 1 rfl rfl⟩

/-- One step of the `Loop` retry loop on a non-fatal failure of the inner
sequence: log and re-run the whole loop body from scratch. -/
theorem retry_nonfatal_step {σ : Type} (c : Client σ) (cs : List WebCommand)
    (k : Nat) (s s' : σ) (e : WDError)
    (h : interp c k (.seqq cs) s = some (.error e, s'))
    (hnf : isFatalErr e = false) :
    interp c (k+1) (.retry cs) s = interp c k (.retry cs) s' := by
  rcases e with er | _ | _ | es | _
  · rcases er with es | msg
    · rcases es with _ | _ | code
      · simp [isFatalErr] at hnf
      · simp [isFatalErr] at hnf
      · simp [interp, h]
    · simp [interp, h]
  · simp [interp, h]
  · simp [interp, h]
  · simp [interp, h]
  · simp [interp, h]

/-- One step of the `Loop` retry loop on success of the inner sequence:
break out of the loop. -/
theorem retry_ok_step {σ : Type} (c : Client σ) (cs : List WebCommand)
    (k : Nat) (s s' : σ) (r : Option Elem)
    (h : interp c k (.seqq cs) s = some (.ok r, s')) :
    interp c (k+1) (.retry cs) s = some (.ok r, s') := by
  simp [interp, h]

/-- C1 (amended): when a `Loop`'s inner sequence fails with a standard
`NoSuchWindow`/`InvalidSessionId` protocol error, the loop propagates
immediately, with zero retries, the rewrapped `bail!` error
("A loop has failed"), and a top-level `Loop` thereby aborts the whole run;
when the inner sequence fails with any other error the loop re-runs the
entire inner sequence from its first step (no backoff, no retry bound), and
an inner sequence that fails non-fatally twice and then succeeds makes the
loop succeed after exactly three executions. -/
theorem c1_loop_retry_classification {σ : Type} (c : Client σ)
    (cs : List WebCommand) (elem : Option Elem) (selOpt : Option String)
    (rest : List WebCommand) (nA nB m : Nat)
    (sA sA1 sB sB1 t0 t1 t2 t3 : σ) (st : ErrorStatus) (eB f1 f2 : WDError)
    (r3 : Option Elem)
    (hst : st = .noSuchWindow ∨ st = .invalidSessionId)
    (hA : interp c nA (.seqq cs) sA = some (.error (.cmd (.standard st)), sA1))
    (hB : interp c nB (.seqq cs) sB = some (.error eB, sB1))
    (hBnf : isFatalErr eB = false)
    (hC1 : interp c (m+2) (.seqq cs) t0 = some (.error f1, t1))
    (hC1nf : isFatalErr f1 = false)
    (hC2 : interp c (m+1) (.seqq cs) t1 = some (.error f2, t2))
    (hC2nf : isFatalErr f2 = false)
    (hC3 : interp c m (.seqq cs) t2 = some (.ok r3, t3)) :
    interp c (nA+1) (.retry cs) sA = some (.error (.loopFailed st), sA1) ∧
    interp c (nA+2) (.detail elem (.mk selOpt (.Loop cs))) sA
      = some (.error (.loopFailed st), sA1) ∧
    mainLoop c (nA+3) (WebCommand.mk selOpt (.Loop cs) :: rest) sA
      = some (some (.loopFailed st), sA1) ∧
    interp c (nB+1) (.retry cs) sB = interp c nB (.retry cs) sB1 ∧
    interp c (m+3) (.retry cs) t0 = some (.ok r3, t3) := by
  have h1 : interp c (nA+1) (.retry cs) sA
      = some (.error (.loopFailed st), sA1) := by
    rcases hst with h | h <;> subst h <;> simp [interp, hA]
  have h2 : ∀ el : Option Elem,
      interp c (nA+2) (.detail el (.mk selOpt (.Loop cs))) sA
        = some (.error (.loopFailed st), sA1) := by
    intro el
    rw [interp_detail_loop, h1]
  have hchain : interp c (nA+3)
      (.chain none (WebCommand.mk selOpt (.Loop cs))) sA
        = some (.error (.loopFailed st), sA1) := by
    rw [interp_chain_step, h2 none]
  refine ⟨h1, h2 elem, ?_, ?_, ?_⟩
  · rw [mainLoop_cons, hchain]
  · exact retry_nonfatal_step c cs nB sB sB1 eB hB hBnf
  · rw [retry_nonfatal_step c cs (m+2) t0 t1 f1 hC1 hC1nf,
      retry_nonfatal_step c cs (m+1) t1 t2 f2 hC2 hC2nf,
      retry_ok_step c cs m t2 t3 r3 hC3]

/-- Witness for C1: the inner sequence is a single `GoTo`; `cFlaky` makes it
fail with `NoSuchWindow` at state 100, fail non-fatally at state 200, and
(for the scenario) fail non-fatally at states 0 and 1 and succeed at 2. -/
theorem c1_loop_retry_classification_witness :
    interp cFlaky 4 (.retry [WebCommand.mk none (.GoTo "go")]) 100
      = some (.error (.loopFailed .noSuchWindow), 101) ∧
    mainLoop cFlaky 6 (WebCommand.mk none (.Loop [WebCommand.mk none (.GoTo "go")]) :: []) 100
      = some (some (.loopFailed .noSuchWindow), 101) ∧
    interp cFlaky 6 (.retry [WebCommand.mk none (.GoTo "go")]) 0
      = some (.ok none, 3) := by
  have H := c1_loop_retry_classification cFlaky
    [WebCommand.mk none (.GoTo "go")] none none [] 3 3 3
    100 101 200 201 0 1 2 3 .noSuchWindow
    (.cmd (.nonStandard "boom")) (.cmd (.nonStandard "flaky"))
    (.cmd (.nonStandard "flaky")) none
    (Or.inl rfl) rfl rfl rfl rfl rfl rfl rfl rfl
  exact ⟨H.1, H.2.2.1, H.2.2.2.2⟩

/-- Counterexample to C1 as stated: a `NoSuchWindow` protocol error escaping
a nested `Loop` does not abort the whole run — the enclosing `Loop` sees
only the rewrapped `bail!` error, classifies it as retryable, retries, and
here the run then succeeds (final state 2 records a second `goto` call,
i.e. at least one retry happened after the protocol error). -/
theorem c1_nested_loop_counterexample :
    mainLoop cOnceNsw 15
      [WebCommand.mk none (.Loop [WebCommand.mk none
        (.Loop [WebCommand.mk none (.GoTo "go")])])] 0
      = some (none, 2) := rfl

/-- The click-until loop can only succeed with a `None` element context. -/
theorem clickRepeat_ok_none {σ : Type} (c : Client σ)
    (selOpt : Option String) (base : String) (b : Bool) :
    ∀ (k : Nat) (e : Elem) (s : σ) (r : Option Elem) (s' : σ),
      interp c k (.clickRepeat selOpt base b e) s = some (.ok r, s') →
      r = none := by
  intro k
  induction k with
  | zero => intro e s r s' h; simp [interp] at h
  | succ n ih =>
    intro e s r s' h
    simp only [interp] at h
    repeat' split at h
    all_goals first
      | exact ih _ _ _ _ h
      | simp_all

/-- C4: `Descend` (`Recursive`) returns `Some (resolved element)` as the new
context; every other element-mode kind can only succeed with a `None`
context; and `run_command` threads each chain step's output context into
exactly the next step of the `Recursive` chain (the continuation depends
only on that output, the nested child and the state, so a context from two
steps back is never observed again). -/
theorem c4_descend_context_threading {σ : Type} (c : Client σ)
    (ct : CommandType) (child : WebCommand) (selOpt selOpt2 : Option String)
    (sel : String) (elem r r2 : Option Elem) (ne : Elem) (n : Nat)
    (s s1 s2 : σ)
    (hk : isElementKind ct = true) (hnr : ∀ ch, ct ≠ .Recursive ch) :
    (resolveElem c elem sel s = (.ok ne, s1) →
      interp c (n+1) (.detail elem (.mk (some sel) (.Recursive child))) s
        = some (.ok (some ne), s1)) ∧
    (interp c (n+1) (.detail elem (.mk selOpt ct)) s = some (.ok r, s1) →
      r = none) ∧
    (interp c n (.detail elem (.mk selOpt2 (.Recursive child))) s
        = some (.ok r2, s2) →
      interp c (n+1) (.chain elem (.mk selOpt2 (.Recursive child))) s
        = interp c n (.chain r2 child) s2) := by
  refine ⟨fun h => ?_, fun h => ?_, fun h => ?_⟩
  · simp [interp, withResolved, WebCommand.command_type, WebCommand.selector, h]
  · cases ct <;>
      first
        | (simp [isElementKind] at hk; done)
        | exact absurd rfl (hnr _)
        | (simp only [interp, withResolved, WebCommand.command_type,
             WebCommand.selector] at h
           repeat' split at h
           all_goals first
             | exact clickRepeat_ok_none c _ _ _ _ _ _ _ _ h
             | simp_all)
  · rw [interp_chain_step, h]
    rfl

/-- Witness for C4: a `Descend` resolving element 8, and the chain handing
that element to the nested `Click`. -/
theorem c4_descend_context_threading_witness :
    interp cAllOk 2 (.detail (some 4)
        (.mk (some "a") (.Recursive (WebCommand.mk (some "b") .Click)))) 0
      = some (.ok (some 8), 1) ∧
    interp cAllOk 2 (.chain (some 4)
        (.mk (some "a") (.Recursive (WebCommand.mk (some "b") .Click)))) 0
      = interp cAllOk 1 (.chain (some 8) (WebCommand.mk (some "b") .Click)) 1 := by
  have H := c4_descend_context_threading cAllOk .Click
    (WebCommand.mk (some "b") .Click) (some "a") (some "a") "a"
    (some 4) none (some 8) 8 1 0 1 1 rfl
    (fun _ hh => CommandType.noConfusion hh)
  exact ⟨H.1 rfl, H.2.2 rfl⟩

/-- Core induction for the click-until loop against a counting client whose
snapshot after `j` clicks is `f j`: if the snapshots after clicks `1..k`
all equal the baseline and the snapshot after click `k+1` differs, the loop
performs exactly `k+1` clicks and succeeds with a `None` context. -/
theorem clickRepeat_sched (c : Client Nat) (sel : String) (b : Bool)
    (f : Nat → String) (g : Nat → Elem) (base : String)
    (hclick : ∀ e m, c.click e m = (.ok (), m+1))
    (hsnap : ∀ m, (if b then c.currentUrl m else c.source m) = (.ok (f m), m))
    (hfind : ∀ m, c.find sel m = (.ok (g m), m)) :
    ∀ (k m fuel : Nat) (e : Elem), k < fuel →
      (∀ j, 0 < j → j ≤ k → f (m+j) = base) →
      f (m+k+1) ≠ base →
      interp c fuel (.clickRepeat (some sel) base b e) m
        = some (.ok none, m+k+1) := by
  intro k
  induction k with
  | zero =>
    intro m fuel e hf _ hdiff
    obtain ⟨fz, rfl⟩ : ∃ fz, fuel = fz + 1 := ⟨fuel - 1, by omega⟩
    simp only [Nat.add_zero] at hdiff
    simp [interp, hclick, hsnap, hdiff]
  | succ k ih =>
    intro m fuel e hf hsame hdiff
    obtain ⟨fz, rfl⟩ : ∃ fz, fuel = fz + 1 := ⟨fuel - 1, by omega⟩
    have h1 : f (m+1) = base := hsame 1 (by omega) (by omega)
    have step : interp c (fz+1) (.clickRepeat (some sel) base b e) m
        = interp c fz (.clickRepeat (some sel) base b (g (m+1))) (m+1) := by
      simp [interp, hclick, hsnap, hfind, h1]
    rw [step,
      ih (m+1) fz (g (m+1)) (by omega)
        (fun j hj hjk => by
          have hs := hsame (j+1) (by omega) (by omega)
          rwa [show m+(j+1) = m+1+j by omega] at hs)
        (by rwa [show m+1+k+1 = m+(k+1)+1 by omega])]
    congr 2
    omega

/-- C6: `ClickUntilNavigation` and `ClickUntilDomChanged` capture the
baseline snapshot (current URL / page source) before the first click, then
click, re-snapshot, re-resolve via the same selector while the snapshot is
unchanged, and terminate with a `None` context exactly on the first click
after which the snapshot differs from the baseline (against a counting
client whose snapshot after `j` clicks is `f j`, the loop does exactly
`k+1` clicks when `f` first differs from `f 0` at index `k+1`). -/
theorem c6_click_until_snapshot_change (c : Client Nat) (sel : String)
    (f : Nat → String) (g : Nat → Elem) (k fuel : Nat)
    (hclick : ∀ e m, c.click e m = (.ok (), m+1))
    (hurl : ∀ m, c.currentUrl m = (.ok (f m), m))
    (hsrc : ∀ m, c.source m = (.ok (f m), m))
    (hfind : ∀ m, c.find sel m = (.ok (g m), m))
    (hsame : ∀ j, 0 < j → j ≤ k → f j = f 0)
    (hdiff : f (k+1) ≠ f 0)
    (hfuel : k < fuel) :
    interp c (fuel+1) (.detail none (.mk (some sel) .ClickUntilNavigation)) 0
      = some (.ok none, k+1) ∧
    interp c (fuel+1) (.detail none (.mk (some sel) .ClickUntilDomChanged)) 0
      = some (.ok none, k+1) ∧
    (∀ (e m fz : Nat) (bl : String), f (m+1) = bl →
      interp c (fz+1) (.clickRepeat (some sel) bl true e) m
        = interp c fz (.clickRepeat (some sel) bl true (g (m+1))) (m+1)) ∧
    (∀ (e m fz : Nat) (bl : String), f (m+1) ≠ bl →
      interp c (fz+1) (.clickRepeat (some sel) bl true e) m
        = some (.ok none, m+1)) := by
  have hsnapT : ∀ m, (if true then c.currentUrl m else c.source m)
      = (.ok (f m), m) := by simpa using hurl
  have hsnapF : ∀ m, (if false then c.currentUrl m else c.source m)
      = (.ok (f m), m) := by simpa using hsrc
  have hloop : ∀ b : Bool,
      (∀ m, (if b then c.currentUrl m else c.source m) = (.ok (f m), m)) →
      interp c fuel (.clickRepeat (some sel) (f 0) b (g 0)) 0
        = some (.ok none, k+1) := by
    intro b hsnap
    have := clickRepeat_sched c sel b f g (f 0) hclick hsnap hfind
      k 0 fuel (g 0) hfuel
      (fun j hj hjk => by simpa using hsame j hj hjk)
      (by simpa using hdiff)
    simpa using this
  refine ⟨?_, ?_, ?_, ?_⟩
  · have hres : interp c (fuel+1)
        (.detail none (.mk (some sel) .ClickUntilNavigation)) 0
        = interp c fuel (.clickRepeat (some sel) (f 0) true (g 0)) 0 := by
      simp [interp, withResolved, resolveElem, WebCommand.command_type,
        WebCommand.selector, hfind, hurl]
    rw [hres, hloop true hsnapT]
  · have hres : interp c (fuel+1)
        (.detail none (.mk (some sel) .ClickUntilDomChanged)) 0
        = interp c fuel (.clickRepeat (some sel) (f 0) false (g 0)) 0 := by
      simp [interp, withResolved, resolveElem, WebCommand.command_type,
        WebCommand.selector, hfind, hsrc]
    rw [hres, hloop false hsnapF]
  · intro e m fz bl hbl
    simp [interp, hclick, hurl, hfind, hbl]
  · intro e m fz bl hbl
    simp [interp, hclick, hurl, hbl]

/-- Witness for C6: with snapshots unchanged after clicks 1 and 2 and
changed after click 3, both click-until variants do exactly 3 clicks. -/
theorem c6_click_until_snapshot_change_witness :
    interp cSched 6 (.detail none (.mk (some "q") .ClickUntilNavigation)) 0
      = some (.ok none, 3) ∧
    interp cSched 6 (.detail none (.mk (some "q") .ClickUntilDomChanged)) 0
      = some (.ok none, 3) := by
  have H := c6_click_until_snapshot_change cSched "q" fSched
    (fun m => m+100) 2 5
    (fun _ _ => rfl) (fun _ => rfl) (fun _ => rfl) (fun _ => rfl)
    (fun j h1 h2 => by interval_cases j <;> rfl)
    (by decide) (by omega)
  exact ⟨H.1, H.2.1⟩

/-- C7 (amended): the `Wait` step (the spec's `WaitForSelector`) calls
`wait_for_find` with no timeout wrapper: it never completes when the
element never appears, completes with the incoming context unchanged when
the wait completes, and never raises a timeout error.  The bounded wait is
`WaitForSeconds` with a selector present: a never-completing wait becomes an
`Elapsed` timeout error, which a `Loop` classifies as retryable, while
outside any `Loop` it propagates and stops the run. -/
theorem c7_wait_timeout_classification {σ : Type} (c : Client σ)
    (sel sel2 : String) (elem : Option Elem) (sec n m fz : Nat)
    (s t t1 u u1 v v1 : σ) (ne2 : Elem) (cs rest : List WebCommand)
    (wcmd : WebCommand)
    (hnone : c.waitForFind sel s = none)
    (hfound : c.waitForFind sel2 t = some (.ok ne2, t1))
    (hseq : interp c m (.seqq cs) u = some (.error .elapsed, u1))
    (hrun : interp c fz (.chain none wcmd) v = some (.error .elapsed, v1)) :
    interp c (n+1) (.detail elem (.mk (some sel) .Wait)) s = none ∧
    interp c (n+1) (.detail elem (.mk (some sel) (.WaitForSeconds sec))) s
      = some (.error .elapsed, s) ∧
    interp c (n+1) (.detail elem (.mk (some sel2) .Wait)) t
      = some (.ok elem, t1) ∧
    interp c (m+1) (.retry cs) u = interp c m (.retry cs) u1 ∧
    mainLoop c fz (wcmd :: rest) v = some (some .elapsed, v1) := by
  refine ⟨?_, ?_, ?_, ?_, ?_⟩
  · simp [interp, WebCommand.command_type, WebCommand.selector, hnone]
  · simp [interp, WebCommand.command_type, WebCommand.selector, hnone]
  · simp [interp, WebCommand.command_type, WebCommand.selector, hfound]
  · exact retry_nonfatal_step c cs m u u1 .elapsed hseq rfl
  · rw [mainLoop_cons, hrun]

/-- Witness for C7 at the mixed-wait client: selector "a" never appears,
selector "b" appears immediately. -/
theorem c7_wait_timeout_classification_witness :
    interp cWaitMix 1 (.detail none (.mk (some "a") .Wait)) 0 = none ∧
    interp cWaitMix 1 (.detail none (.mk (some "a") (.WaitForSeconds 2))) 0
      = some (.error .elapsed, 0) ∧
    interp cWaitMix 1 (.detail none (.mk (some "b") .Wait)) 5
      = some (.ok none, 6) ∧
    interp cWaitMix 4
        (.retry [WebCommand.mk (some "a") (.WaitForSeconds 2)]) 7
      = interp cWaitMix 3
        (.retry [WebCommand.mk (some "a") (.WaitForSeconds 2)]) 7 ∧
    mainLoop cWaitMix 2 [WebCommand.mk (some "a") (.WaitForSeconds 2)] 9
      = some (some .elapsed, 9) := by
  have H := c7_wait_timeout_classification cWaitMix "a" "b" none 2 0 3 2
    0 5 6 7 7 9 9 9 [WebCommand.mk (some "a") (.WaitForSeconds 2)] []
    (WebCommand.mk (some "a") (.WaitForSeconds 2)) rfl rfl rfl rfl
  exact ⟨H.1, H.2.1, H.2.2.1, H.2.2.2.1, H.2.2.2.2⟩

/-- Counterexample to C7 as stated: with an element that never appears, the
`Wait` step (the spec's `WaitForSelector`) does not fail with a timeout
error — it never completes at all; the bounded timeout that yields an
`Elapsed` error is implemented only by the `WaitForSeconds` arm. -/
theorem c7_wait_unbounded_counterexample :
    interp cNever 5 (.detail none (.mk (some "a") .Wait)) 0 = none ∧
    interp cNever 5 (.detail none (.mk (some "a") (.WaitForSeconds 1))) 0
      = some (.error .elapsed, 0) := ⟨rfl, rfl⟩

/-- C9 (evaluating the modelled `main` at the failing input): when the
WebDriver connection (`Client::new`) fails after the geckodriver child has
been spawned, `main` propagates the error with `?` and exits without ever
reaching `child.kill()` — the driver subprocess is not terminated
(`false` in the first component), although on the success path and on the
command-failure path it is (`true`). -/
theorem c9_driver_kill_paths :
    mainRun cAllOk 5 [] (.error (.cmd (.nonStandard "connection refused")))
      = some (false, .error (.cmd (.nonStandard "connection refused"))) ∧
    mainRun cAllOk 5 [] (.ok 0) = some (true, .ok ()) ∧
    mainRun cFlaky 5 [WebCommand.mk none (.GoTo "u")] (.ok 200)
      = some (true, .ok ()) := ⟨rfl, rfl, rfl⟩

mutual
/-- Parsing inverts serialization on every command type. -/
theorem decode_encode_ct : ∀ ct : CommandType,
    decodeCT (encodeCT ct) = some ct
  | .Click => rfl
  | .Check => rfl
  | .Input s => rfl
  | .Wait => rfl
  | .WaitForSeconds n => rfl
  | .GoTo u => rfl
  | .ChangeWindow i => rfl
  | .EnterFrame => rfl
  | .LeaveFrame => rfl
  | .PrintSource => rfl
  | .Recursive child => by
    rw [show encodeCT (.Recursive child)
          = .mapV [("Recursive", encodeCommand child)] from rfl,
      show decodeCT (.mapV [("Recursive", encodeCommand child)])
          = (decodeCommand (encodeCommand child)).map .Recursive from rfl,
      decode_encode_command child]
    rfl
  | .ScrollIntoView => rfl
  | .ChangeWindowSize w h => rfl
  | .Loop cs => by
    rw [show encodeCT (.Loop cs)
          = .mapV [("Loop", .seqV (encodeCommands cs))] from rfl,
      show decodeCT (.mapV [("Loop", .seqV (encodeCommands cs))])
          = (decodeCommands (encodeCommands cs)).map .Loop from rfl,
      decode_encode_commands cs]
    rfl
  | .Clear => rfl
  | .ClickUntilNavigation => rfl
  | .ClickUntilDomChanged => rfl

/-- Parsing inverts serialization on every command. -/
theorem decode_encode_command : ∀ cmd : WebCommand,
    decodeCommand (encodeCommand cmd) = some cmd
  | .mk sel ct => by
    rw [show encodeCommand (.mk sel ct)
          = .mapV [("selector", encodeSelector sel),
              ("command_type", encodeCT ct)] from rfl,
      show decodeCommand (.mapV [("selector", encodeSelector sel),
              ("command_type", encodeCT ct)])
          = (match decodeSelector (encodeSelector sel),
                decodeCT (encodeCT ct) with
             | some s, some c => some (.mk s c)
             | _, _ => none) from rfl,
      decode_encode_ct ct]
    cases sel <;> rfl

/-- Parsing inverts serialization on every command list. -/
theorem decode_encode_commands : ∀ cs : List WebCommand,
    decodeCommands (encodeCommands cs) = some cs
  | [] => rfl
  | c :: cs => by
    rw [show encodeCommands (c :: cs)
          = encodeCommand c :: encodeCommands cs from rfl,
      show decodeCommands (encodeCommand c :: encodeCommands cs)
          = (match decodeCommand (encodeCommand c),
                decodeCommands (encodeCommands cs) with
             | some car, some cdr => some (car :: cdr)
             | _, _ => none) from rfl,
      decode_encode_command c, decode_encode_commands cs]
end

/-- Serializing inverts parsing on the optional selector. -/
theorem encode_decode_selector : ∀ (y : Yaml) (sel : Option String),
    decodeSelector y = some sel → encodeSelector sel = y
  | .null, _, h => by injection h with hh; subst hh; rfl
  | .str s, _, h => by injection h with hh; subst hh; rfl
  | .num _, _, h => Option.noConfusion h
  | .seqV _, _, h => Option.noConfusion h
  | .mapV _, _, h => Option.noConfusion h

set_option maxHeartbeats 1000000 in
mutual
/-- Serializing inverts parsing on every parseable command-type document. -/
theorem encode_decode_ct : ∀ (y : Yaml) (ct : CommandType),
    decodeCT y = some ct → encodeCT ct = y
  | .str s, ct, h => by
    rw [decodeCT.eq_1] at h
    simp only [decodeCTStr] at h
    split_ifs at h <;>
      first
        | exact Option.noConfusion h
        | (injection h with hh; subst hh; subst_vars; rfl)
  | .num _, _, h => Option.noConfusion h
  | .null, _, h => Option.noConfusion h
  | .seqV _, _, h => Option.noConfusion h
  | .mapV [], _, h => Option.noConfusion h
  | .mapV [(k, .seqV ys)], ct, h => by
    rw [decodeCT.eq_2] at h
    split_ifs at h with hR hL
    · obtain ⟨cmd, hd, hct⟩ := Option.map_eq_some'.mp h
      subst hct
      rw [show encodeCT (.Recursive cmd)
            = .mapV [("Recursive", encodeCommand cmd)] from rfl,
        encode_decode_command _ cmd hd, hR]
    · obtain ⟨cs, hd, hct⟩ := Option.map_eq_some'.mp h
      subst hct
      rw [show encodeCT (.Loop cs)
            = .mapV [("Loop", .seqV (encodeCommands cs))] from rfl,
        encode_decode_commands ys cs hd, hL]
    · simp only [decodeCTKeyPlain] at h
      split_ifs at h <;>
        first
          | (simp at h; done)
          | (simp at h; subst_vars; rfl)
          | (split at h <;>
              first
                | exact Option.noConfusion h
                | (injection h with hh; subst hh; subst_vars;
                   simp_all [encodeCT]))
  | .mapV [(k, .str s2)], ct, h => by
    rw [decodeCT.eq_3 _ _ (fun _ hh => Yaml.noConfusion hh)] at h
    split_ifs at h with hR hL
    · obtain ⟨cmd, hd, hct⟩ := Option.map_eq_some'.mp h
      subst hct
      rw [show encodeCT (.Recursive cmd)
            = .mapV [("Recursive", encodeCommand cmd)] from rfl,
        encode_decode_command _ cmd hd, hR]
    · simp only [decodeCTKeyPlain] at h
      split_ifs at h <;>
        first
          | (simp at h; done)
          | (simp at h; subst_vars; rfl)
          | (split at h <;>
              first
                | exact Option.noConfusion h
                | (injection h with hh; subst hh; subst_vars;
                   simp_all [encodeCT]))
  | .mapV [(k, .num n2)], ct, h => by
    rw [decodeCT.eq_3 _ _ (fun _ hh => Yaml.noConfusion hh)] at h
    split_ifs at h with hR hL
    · obtain ⟨cmd, hd, hct⟩ := Option.map_eq_some'.mp h
      subst hct
      rw [show encodeCT (.Recursive cmd)
            = .mapV [("Recursive", encodeCommand cmd)] from rfl,
        encode_decode_command _ cmd hd, hR]
    · simp only [decodeCTKeyPlain] at h
      split_ifs at h <;>
        first
          | (simp at h; done)
          | (simp at h; subst_vars; rfl)
          | (split at h <;>
              first
                | exact Option.noConfusion h
                | (injection h with hh; subst hh; subst_vars;
                   simp_all [encodeCT]))
  | .mapV [(k, .null)], ct, h => by
    rw [decodeCT.eq_3 _ _ (fun _ hh => Yaml.noConfusion hh)] at h
    split_ifs at h with hR hL
    · obtain ⟨cmd, hd, hct⟩ := Option.map_eq_some'.mp h
      subst hct
      rw [show encodeCT (.Recursive cmd)
            = .mapV [("Recursive", encodeCommand cmd)] from rfl,
        encode_decode_command _ cmd hd, hR]
    · simp only [decodeCTKeyPlain] at h
      split_ifs at h <;>
        first
          | (simp at h; done)
          | (simp at h; subst_vars; rfl)
          | (split at h <;>
              first
                | exact Option.noConfusion h
                | (injection h with hh; subst hh; subst_vars;
                   simp_all [encodeCT]))
  | .mapV [(k, .mapV kvs2)], ct, h => by
    rw [decodeCT.eq_3 _ _ (fun _ hh => Yaml.noConfusion hh)] at h
    split_ifs at h with hR hL
    · obtain ⟨cmd, hd, hct⟩ := Option.map_eq_some'.mp h
      subst hct
      rw [show encodeCT (.Recursive cmd)
            = .mapV [("Recursive", encodeCommand cmd)] from rfl,
        encode_decode_command _ cmd hd, hR]
    · simp only [decodeCTKeyPlain] at h
      split_ifs at h <;>
        first
          | (simp at h; done)
          | (simp at h; subst_vars; rfl)
          | (split at h <;>
              first
                | exact Option.noConfusion h
                | (injection h with hh; subst hh; subst_vars;
                   simp_all [encodeCT]))
  | .mapV ((_, _) :: (_, _) :: _), _, h => Option.noConfusion h
  termination_by y _ _ => sizeOf y

/-- Serializing inverts parsing on every parseable command document. -/
theorem encode_decode_command : ∀ (y : Yaml) (cmd : WebCommand),
    decodeCommand y = some cmd → encodeCommand cmd = y
  | .mapV [(k1, ysel), (k2, yct)], cmd, h => by
    rw [decodeCommand.eq_1] at h
    split_ifs at h with h1 h2
    · split at h
      · rename_i sel ct hsel hct
        injection h with hh
        subst hh
        rw [show encodeCommand (.mk sel ct)
              = .mapV [("selector", encodeSelector sel),
                  ("command_type", encodeCT ct)] from rfl,
          encode_decode_selector ysel sel hsel,
          encode_decode_ct yct ct hct, h1, h2]
      · exact Option.noConfusion h
  | .str _, _, h => Option.noConfusion h
  | .num _, _, h => Option.noConfusion h
  | .null, _, h => Option.noConfusion h
  | .seqV _, _, h => Option.noConfusion h
  | .mapV [], _, h => Option.noConfusion h
  | .mapV [(_, _)], _, h => Option.noConfusion h
  | .mapV ((_, _) :: (_, _) :: _ :: _), _, h => Option.noConfusion h
  termination_by y _ _ => sizeOf y

/-- Serializing inverts parsing on every parseable command-list document. -/
theorem encode_decode_commands : ∀ (ys : List Yaml) (cs : List WebCommand),
    decodeCommands ys = some cs → encodeCommands cs = ys
  | [], cs, h => by
    injection h with hh
    subst hh
    rfl
  | y :: ys, cs, h => by
    rw [decodeCommands.eq_2] at h
    split at h
    · rename_i car cdr hcar hcdr
      injection h with hh
      subst hh
      rw [show encodeCommands (car :: cdr)
            = encodeCommand car :: encodeCommands cdr from rfl,
        encode_decode_command y car hcar, encode_decode_commands ys cdr hcdr]
    · exact Option.noConfusion h
  termination_by ys _ _ => sizeOf ys
end

/-- C8: round-tripping a step list through the serde document model is the
identity in both directions: serializing then re-parsing returns the same
list (for every list, so in particular for nested `Loop`/`Descend`
structures of any depth), and parsing then re-serializing returns the same
document for every parseable document. -/
theorem c8_serialization_roundtrip :
    (∀ cs : List WebCommand, decodeCommands (encodeCommands cs) = some cs) ∧
    (∀ (ys : List Yaml) (cs : List WebCommand),
      decodeCommands ys = some cs → encodeCommands cs = ys) :=
  ⟨decode_encode_commands, encode_decode_commands⟩

/-- Witness for C8: round-tripping a depth-2 nested `Loop`/`Descend` list. -/
theorem c8_serialization_roundtrip_witness :
    decodeCommands (encodeCommands
      [WebCommand.mk none (.Loop [WebCommand.mk (some "div")
        (.Recursive (WebCommand.mk (some "a") .Click))]),
       WebCommand.mk (some "p") .Check])
      = some [WebCommand.mk none (.Loop [WebCommand.mk (some "div")
        (.Recursive (WebCommand.mk (some "a") .Click))]),
       WebCommand.mk (some "p") .Check] :=
  c8_serialization_roundtrip.1
    [WebCommand.mk none (.Loop [WebCommand.mk (some "div")
      (.Recursive (WebCommand.mk (some "a") .Click))]),
     WebCommand.mk (some "p") .Check]

end WebAutomator
